import Mathlib

/-!
Shallow embedding of the natural-language query and period-comparison engine
of the google-ads-analyzer repository (`src/dynamic-analysis-engine.js`
together with the query-dispatch helpers `detectQueryIntent` and
`executeComparison` of the server file), and theorems settling documented
properties of that engine.

Modelling conventions:

* JavaScript numbers are modelled as exact rationals (`ℚ`).  All arithmetic
  the engine performs on metric values (sums, guarded divisions, percentage
  computations, `toFixed` rounding) is arithmetic on decimal values and is
  embedded exactly.
* JavaScript strings are Lean `String`s.  The regular expressions used by
  the engine are alternations of literal words and the character classes
  `\s`, `\w`, `\d`; they are embedded as executable matchers over
  `List Char` (`RTok`, `reFind`).  The `/i` flag is modelled by lowering
  through `jsToLowerChar`, the ASCII lowering `String.prototype.toLowerCase`
  performs on the engine's inputs.
* Optional-chaining access with a numeric default (`row.metrics?.clicks || 0`)
  is modelled with `Option` and `Option.getD 0`.
* `Array.prototype.sort` with the comparator
  `(a, b) => b.relevanceScore - a.relevanceScore` is a stable descending
  sort; it is embedded as the structural stable insertion sort
  `sortByScoreDesc`, which agrees with every stable sort on this comparator.
-/

namespace AdsEngine

/-! ## JavaScript character classes and strings -/

/-- The characters of the regex class `\s` occurring in this engine's inputs
(space, tab, line feed, carriage return). -/
def isWsChar (c : Char) : Bool :=
  c.toNat == 32 || c.toNat == 9 || c.toNat == 10 || c.toNat == 13

/-- The regex class `\d` (ASCII digits). -/
def isDigitChar (c : Char) : Bool :=
  decide (48 ≤ c.toNat ∧ c.toNat ≤ 57)

/-- ASCII letters. -/
def isAsciiAlpha (c : Char) : Bool :=
  decide ((65 ≤ c.toNat ∧ c.toNat ≤ 90) ∨ (97 ≤ c.toNat ∧ c.toNat ≤ 122))

/-- The regex class `\w` (`[A-Za-z0-9_]`). -/
def isWordChar (c : Char) : Bool :=
  isDigitChar c || isAsciiAlpha c || c.toNat == 95

/-- ASCII lowering of one character, as `String.prototype.toLowerCase`
performs on the ASCII inputs this engine sees. -/
def jsToLowerChar (c : Char) : Char :=
  if 65 ≤ c.toNat ∧ c.toNat ≤ 90 then Char.ofNat (c.toNat + 32) else c

/-- `String.prototype.toLowerCase` on ASCII strings. -/
def strLower (s : String) : String :=
  String.mk (s.data.map jsToLowerChar)

/-- Decides whether `needle` is a prefix of `hay` (character lists). -/
def isPrefixChars : List Char → List Char → Bool
  | [], _ => true
  | _ :: _, [] => false
  | a :: as, b :: bs => a == b && isPrefixChars as bs

/-- Decides whether `needle` occurs as a contiguous substring of `hay`;
this is exactly `RegExp.test` for a regex that is a single literal. -/
def isInfixChars (needle : List Char) : List Char → Bool
  | [] => needle.isEmpty
  | c :: rest => isPrefixChars needle (c :: rest) || isInfixChars needle rest

/-- `String.prototype.split(/\s+/)`: split on maximal whitespace runs.  A
leading run contributes a leading empty token and a trailing run a trailing
empty token, exactly as in JavaScript.  `acc` holds the reversed characters
of the token being read and `inWs` records whether the previous character
was whitespace. -/
def splitWsGo : List Char → List Char → Bool → List String
  | [], acc, _ => [String.mk acc.reverse]
  | c :: cs, acc, inWs =>
    if isWsChar c then
      if inWs then splitWsGo cs acc true
      else String.mk acc.reverse :: splitWsGo cs [] true
    else splitWsGo cs (c :: acc) false

/-- `query.split(/\s+/)`. -/
def splitWs (s : String) : List String :=
  splitWsGo s.data [] false

/-! ## JavaScript number formatting and parsing -/

/-- Left-pad with `'0'` up to `d` characters. -/
def padZeros (d : ℕ) (s : String) : String :=
  String.mk (List.replicate (d - s.length) '0') ++ s

/-- `Number.prototype.toFixed(d)`: fixed-point rendering with `d` fraction
digits.  Per the ECMAScript algorithm the sign is split off first and the
magnitude is scaled by `10^d` and rounded to the nearer integer, ties going
to the larger integer — which is `round` on the magnitude. -/
def toFixed (d : ℕ) (q : ℚ) : String :=
  let sign := if q < 0 then "-" else ""
  let m : ℕ := (round (|q| * (10 : ℚ) ^ d)).toNat
  if d = 0 then sign ++ toString m
  else sign ++ toString (m / 10 ^ d) ++ "." ++ padZeros d (toString (m % 10 ^ d))

/-- Value of a digit string read left to right (`parseInt` on digit input). -/
def digitsToNat (ds : List Char) : ℕ :=
  ds.foldl (fun a c => a * 10 + (c.toNat - 48)) 0

/-- Value of a fraction-digit string: `fracOfDigits [d₁, …, dₖ] = Σ dᵢ/10^i`,
read as the digit run's integer value scaled down by its length. -/
def fracOfDigits (ds : List Char) : ℚ :=
  (digitsToNat ds : ℚ) / 10 ^ ds.length

/-- The lexical part of `parseFloat` on the shapes this engine feeds it:
skip leading whitespace, strip an optional sign, then read integer digits
and optional fraction digits (the engine's own formatting never produces
exponents).  Returns `none` (`NaN`) when no digit was read, otherwise the
sign and the two digit runs. -/
def jsParseFloatParts (s : String) : Option (Bool × List Char × List Char) :=
  let cs := s.data.dropWhile isWsChar
  let p : Bool × List Char :=
    match cs with
    | c :: t => if c == '-' then (true, t) else if c == '+' then (false, t) else (false, c :: t)
    | [] => (false, [])
  let ip := p.2.takeWhile isDigitChar
  let r1 := p.2.dropWhile isDigitChar
  let fp : List Char :=
    match r1 with
    | c :: t => if c == '.' then t.takeWhile isDigitChar else []
    | [] => []
  if ip.isEmpty && fp.isEmpty then none else some (p.1, ip, fp)

/-- `parseFloat`: the numeric value of the parsed parts; `none` models
`NaN`. -/
def jsParseFloat (s : String) : Option ℚ :=
  (jsParseFloatParts s).map (fun p =>
    let v : ℚ := (digitsToNat p.2.1 : ℚ) + fracOfDigits p.2.2
    if p.1 then -v else v)

/-- `parseFloat(s) || 0`: `NaN` collapses to `0` (and `0` stays `0`). -/
def jsParseFloatOr0 (s : String) : ℚ :=
  (jsParseFloat s).getD 0

/-- `a > b` on JavaScript numbers where either side may be `NaN` (`none`):
any comparison against `NaN` is false. -/
def jsNumGt (a b : Option ℚ) : Bool :=
  match a, b with
  | some x, some y => decide (y < x)
  | _, _ => false

/-! ## Data model: upstream metrics rows -/

/-- The `metrics` sub-object of one upstream reporting row.  Every field is
optional; the engine defaults each absent field to `0`. -/
structure Metrics where
  cost_micros : Option ℚ := none
  conversions : Option ℚ := none
  clicks : Option ℚ := none
  conversions_value : Option ℚ := none
  impressions : Option ℚ := none
deriving DecidableEq

/-- One upstream row, with the pieces this engine reads:
`row.metrics?.…` measures, `row.campaign?.name`, and the 0-based month index
that `new Date(row.segments?.date || row.date || Date.now()).getMonth()`
yields for the row's date (the JavaScript runtime's date parsing is external
to the engine and is modelled by this precomputed index). -/
structure Row where
  metrics : Option Metrics := none
  campaignName : Option String := none
  month : ℕ := 0
deriving DecidableEq

/-- `row.metrics?.cost_micros || 0`. -/
def Row.costMicros (r : Row) : ℚ :=
  (r.metrics.bind Metrics.cost_micros).getD 0

/-- `row.metrics?.conversions || 0`. -/
def Row.conversionsVal (r : Row) : ℚ :=
  (r.metrics.bind Metrics.conversions).getD 0

/-- `row.metrics?.clicks || 0`. -/
def Row.clicksVal (r : Row) : ℚ :=
  (r.metrics.bind Metrics.clicks).getD 0

/-- `row.metrics?.conversions_value || 0`. -/
def Row.conversionsValue (r : Row) : ℚ :=
  (r.metrics.bind Metrics.conversions_value).getD 0

/-- `row.metrics?.impressions || 0`. -/
def Row.impressionsVal (r : Row) : ℚ :=
  (r.metrics.bind Metrics.impressions).getD 0

/-! ## Period metrics aggregator (`calculatePeriodMetrics`) -/

/-- The accumulator of the single-pass reduction in
`calculatePeriodMetrics`. -/
structure Totals where
  spend : ℚ
  conversions : ℚ
  clicks : ℚ
  revenue : ℚ
  impressions : ℚ
deriving DecidableEq

/-- One step of the reduction: add one row's measures into the accumulator,
dividing `cost_micros` by the currency micro-unit divisor `1,000,000`. -/
def accRow (acc : Totals) (item : Row) : Totals :=
  { spend := acc.spend + item.costMicros / 1000000
    conversions := acc.conversions + item.conversionsVal
    clicks := acc.clicks + item.clicksVal
    revenue := acc.revenue + item.conversionsValue
    impressions := acc.impressions + item.impressionsVal }

/-- `data.reduce(..., {spend: 0, conversions: 0, clicks: 0, revenue: 0,
impressions: 0})`. -/
def totalsOf (data : List Row) : Totals :=
  data.foldl accRow ⟨0, 0, 0, 0, 0⟩

/-- The summary record `calculatePeriodMetrics` returns.  `spend`, `revenue`,
`roas`, `conversionRate` and `ctr` are formatted strings exactly as in the
source; `conversions`, `clicks` and `impressions` are left numeric. -/
structure PeriodMetrics where
  label : String
  campaigns : ℕ
  spend : String
  conversions : ℚ
  clicks : ℚ
  revenue : String
  impressions : ℚ
  roas : String
  conversionRate : String
  ctr : String
deriving DecidableEq

/-- `calculatePeriodMetrics(data, label)`: reduce the rows, then derive the
guarded ratios (`x > 0 ? … : '0'`/`'0%'`). -/
def calculatePeriodMetrics (data : List Row) (label : String) : PeriodMetrics :=
  let totals := totalsOf data
  { label := label
    campaigns := data.length
    spend := toFixed 2 totals.spend
    conversions := totals.conversions
    clicks := totals.clicks
    revenue := toFixed 2 totals.revenue
    impressions := totals.impressions
    roas := if 0 < totals.spend then toFixed 2 (totals.revenue / totals.spend) else "0"
    conversionRate :=
      if 0 < totals.clicks then toFixed 2 (totals.conversions / totals.clicks * 100) ++ "%" else "0%"
    ctr :=
      if 0 < totals.impressions then toFixed 2 (totals.clicks / totals.impressions * 100) ++ "%" else "0%" }

/-! ## IEEE binary64 semantics of the aggregator

`calculatePeriodMetrics` above embeds the JavaScript number arithmetic
exactly (every value the value-level theorems touch is computed without
rounding).  JavaScript's `+=`, `/` and `*` are, however, IEEE binary64
operations: each result is rounded to 53 significand bits (round to
nearest, ties to even).  The following variant of the aggregator applies
that rounding after every operation, and is used to settle whether the
aggregation is order-independent *as the program computes it*. -/

/-- Round a rational to the nearest integer, ties to the even integer —
the tie-breaking rule of IEEE round-to-nearest. -/
def roundEven (x : ℚ) : ℤ :=
  let f := ⌊x⌋
  let r := x - (f : ℚ)
  if r < 1 / 2 then f
  else if 1 / 2 < r then f + 1
  else if Even f then f else f + 1

/-- Round a rational to the nearest IEEE binary64 value (round to nearest,
ties to even): split off the sign, scale the magnitude so that the
significand lies in `[2^52, 2^53)`, round it to an integer with ties to
even, and scale back.  Modelled on the normal range (no subnormals,
overflow or NaN), which covers every value the theorems touch. -/
def fl64 (q : ℚ) : ℚ :=
  if q = 0 then 0
  else
    let e : ℤ := Int.log 2 |q| - 52
    (if q < 0 then (-1 : ℚ) else 1) * (roundEven (|q| / 2 ^ e) : ℚ) * 2 ^ e

/-- Correctly rounded binary64 addition (JavaScript `+`). -/
def fladd (a b : ℚ) : ℚ := fl64 (a + b)

/-- Correctly rounded binary64 division (JavaScript `/`). -/
def fldiv (a b : ℚ) : ℚ := fl64 (a / b)

/-- Correctly rounded binary64 multiplication (JavaScript `*`). -/
def flmul (a b : ℚ) : ℚ := fl64 (a * b)

/-- One step of the reduction of `calculatePeriodMetrics` with binary64
semantics: each `+=` is a correctly rounded addition, and the micro-unit
division is correctly rounded before being added. -/
def accRowFP (acc : Totals) (item : Row) : Totals :=
  { spend := fladd acc.spend (fldiv item.costMicros 1000000)
    conversions := fladd acc.conversions item.conversionsVal
    clicks := fladd acc.clicks item.clicksVal
    revenue := fladd acc.revenue item.conversionsValue
    impressions := fladd acc.impressions item.impressionsVal }

/-- The reduction of `calculatePeriodMetrics` with binary64 semantics. -/
def totalsOfFP (data : List Row) : Totals :=
  data.foldl accRowFP ⟨0, 0, 0, 0, 0⟩

/-- `calculatePeriodMetrics(data, label)` with binary64 semantics: the
reduction and every derived-ratio operation are correctly rounded. -/
def calculatePeriodMetricsFP (data : List Row) (label : String) : PeriodMetrics :=
  let totals := totalsOfFP data
  { label := label
    campaigns := data.length
    spend := toFixed 2 totals.spend
    conversions := totals.conversions
    clicks := totals.clicks
    revenue := toFixed 2 totals.revenue
    impressions := totals.impressions
    roas := if 0 < totals.spend then toFixed 2 (fldiv totals.revenue totals.spend) else "0"
    conversionRate :=
      if 0 < totals.clicks then
        toFixed 2 (flmul (fldiv totals.conversions totals.clicks) 100) ++ "%"
      else "0%"
    ctr :=
      if 0 < totals.impressions then
        toFixed 2 (flmul (fldiv totals.clicks totals.impressions) 100) ++ "%"
      else "0%" }

/-! ## Period comparator (`comparePerformance`) -/

/-- One entry of the `changes` map of a comparison. -/
structure Change where
  absolute : ℚ
  percentage : String
  direction : String
  magnitude : String
deriving DecidableEq

/-- One qualitative insight statement. -/
structure Insight where
  type : String
  message : String
deriving DecidableEq

/-- The result record of `comparePerformance`.  The `changes` object keyed
by metric name is modelled as an association list in key-insertion order. -/
structure Comparison where
  period1 : PeriodMetrics
  period2 : PeriodMetrics
  changes : List (String × Change)
  insights : List Insight
deriving DecidableEq

/-- The metric list `['spend', 'conversions', 'clicks', 'revenue']` the
comparator iterates over. -/
def comparisonMetrics : List String :=
  ["spend", "conversions", "clicks", "revenue"]

/-- `parseFloat(periodMetrics[metric]) || 0`: the formatted string fields
are parsed back, the numeric fields pass through unchanged (for a finite
number `x`, `parseFloat(String(x)) || 0 = x` except that `NaN` cannot occur
here), and an unknown key reads `undefined`, which parses to `NaN` and
collapses to `0`. -/
def metricVal (p : PeriodMetrics) (metric : String) : ℚ :=
  if metric = "spend" then jsParseFloatOr0 p.spend
  else if metric = "conversions" then p.conversions
  else if metric = "clicks" then p.clicks
  else if metric = "revenue" then jsParseFloatOr0 p.revenue
  else 0

/-- The loop body of the comparator for one metric: when the baseline value
is strictly positive, the percentage change entry; otherwise no entry is
inserted into `changes`. -/
def changeFor (p1 p2 : PeriodMetrics) (metric : String) : Option Change :=
  let val1 := metricVal p1 metric
  let val2 := metricVal p2 metric
  if 0 < val2 then
    let change := (val1 - val2) / val2 * 100
    some { absolute := val1 - val2
           percentage := toFixed 1 change ++ "%"
           direction := if 0 < change then "increase" else "decrease"
           magnitude := if 20 < |change| then "significant" else "modest" }
  else none

/-- The `changes` association list the comparator builds, in metric order. -/
def changesList (p1 p2 : PeriodMetrics) : List (String × Change) :=
  comparisonMetrics.filterMap (fun metric => (changeFor p1 p2 metric).map (fun c => (metric, c)))

/-- `comparePerformance(period1Data, period2Data, period1Label,
period2Label)`: aggregate both periods, build the guarded `changes` map,
then push the (at most two) positive insights. -/
def comparePerformance (period1Data period2Data : List Row)
    (period1Label period2Label : String) : Comparison :=
  let p1 := calculatePeriodMetrics period1Data period1Label
  let p2 := calculatePeriodMetrics period2Data period2Label
  let changes := changesList p1 p2
  let insights : List Insight :=
    (if (List.lookup "conversions" changes).map Change.direction = some "increase" then
      [{ type := "positive"
         message := "Conversions improved by " ++
           ((List.lookup "conversions" changes).elim "" Change.percentage) ++
           " compared to " ++ period2Label }]
     else []) ++
    (if jsNumGt (jsParseFloat p1.roas) (jsParseFloat p2.roas) then
      [{ type := "positive"
         message := "ROAS improved by " ++
           toFixed 2 ((jsParseFloat p1.roas).getD 0 - (jsParseFloat p2.roas).getD 0) ++
           " (" ++ p1.roas ++ " vs " ++ p2.roas ++ ")" }]
     else [])
  { period1 := p1, period2 := p2, changes := changes, insights := insights }

/-! ## Campaign pattern matcher (`findCampaignPatterns`) -/

/-- One scored match of the campaign pattern matcher. -/
structure CampaignMatch where
  campaign : Row
  matchType : String
  relevanceScore : ℚ
deriving DecidableEq

/-- The fixed theme taxonomy, in object-entry order; each theme regex is an
alternation of the listed literals under the `/i` flag. -/
def themePatterns : List (String × List String) :=
  [("holiday", ["4th of july", "july 4th", "independence", "patriotic", "summer sale", "holiday"]),
   ("seasonal", ["summer", "winter", "spring", "fall", "autumn", "seasonal"]),
   ("promotional", ["sale", "discount", "promo", "deal", "offer", "special"]),
   ("brand", ["brand", "branding", "awareness"]),
   ("conversion", ["conversion", "purchase", "buy", "shop"])]

/-- `RegExp.test` for an alternation of literals under `/i`: some
alternative occurs in the lowered text. -/
def regexTestCI (alts : List String) (s : String) : Bool :=
  alts.any (fun a => isInfixChars a.data (strLower s).data)

/-- `calculateRelevance(query, campaignName)`: the fraction of
whitespace-separated query tokens that substring-match some campaign-name
token (in either direction), times 100. -/
def calculateRelevance (query : String) (campaignName : String) : ℚ :=
  let queryWords := splitWs (strLower query)
  let nameWords := splitWs (strLower campaignName)
  let hits := queryWords.countP (fun word =>
    nameWords.any (fun nameWord =>
      isInfixChars word.data nameWord.data || isInfixChars nameWord.data word.data))
  (hits : ℚ) / (queryWords.length : ℚ) * 100

/-- Stable descending insertion: place `m` after every element with a score
not below its own. -/
def insertByScore (m : CampaignMatch) : List CampaignMatch → List CampaignMatch
  | [] => [m]
  | x :: xs => if x.relevanceScore < m.relevanceScore then m :: x :: xs else x :: insertByScore m xs

/-- `matches.sort((a, b) => b.relevanceScore - a.relevanceScore)`: the stable
descending sort this comparator induces (elements are taken left to right,
each inserted after the already-placed elements of equal score, which is
exactly the stable order V8's sort produces for this comparator). -/
def sortByScoreDesc (l : List CampaignMatch) : List CampaignMatch :=
  l.foldl (fun acc m => insertByScore m acc) []

/-- `findCampaignPatterns(query, campaigns)`: for every campaign and every
theme whose regex matches both the query and the campaign's lower-cased
name (`campaign.campaign?.name?.toLowerCase() || ''`), emit one scored
match; sort the matches by descending relevance. -/
def findCampaignPatterns (query : String) (campaigns : List Row) : List CampaignMatch :=
  let found := campaigns.flatMap (fun campaign =>
    let name := strLower (campaign.campaignName.getD "")
    themePatterns.filterMap (fun tp =>
      if regexTestCI tp.2 query && regexTestCI tp.2 name then
        some { campaign := campaign, matchType := tp.1
               relevanceScore := calculateRelevance query name }
      else none))
  sortByScoreDesc found

/-! ## Intent classifier (`detectQueryIntent`, server file) -/

/-- The classifier's ordered pattern table, in object-entry order; each
regex is an alternation of literals under `/i` (the optional group
`campaigns?` is expanded into its two spellings). -/
def intentPatterns : List (String × List String) :=
  [("comparison", ["vs", "versus", "compare", "compared to", "against"]),
   ("seasonal", ["seasonal", "summer", "winter", "spring", "fall", "autumn", "holiday"]),
   ("campaign_search", ["campaign with", "campaigns with", "find campaigns",
                        "campaigns containing", "campaigns like"]),
   ("trend", ["trend", "over time", "pattern", "growth"])]

/-- `detectQueryIntent(query)`: first pattern in table order whose regex
matches the query wins; no match falls back to `'single_period'`. -/
def detectQueryIntent (query : String) : String :=
  match intentPatterns.find? (fun ip => regexTestCI ip.2 query) with
  | some ip => ip.1
  | none => "single_period"

/-! ## Seasonal pattern detector (`getSeason`, `detectSeasonalPatterns`) -/

/-- `getSeason(month)` on the 0-based month index. -/
def getSeason (month : ℕ) : String :=
  if 2 ≤ month ∧ month ≤ 4 then "Spring"
  else if 5 ≤ month ∧ month ≤ 7 then "Summer"
  else if 8 ≤ month ∧ month ≤ 10 then "Fall"
  else "Winter"

/-- A labeled date interval; the initial `comparison` interval's `null`
start/end and empty label are modelled by empty strings. -/
structure DateInterval where
  start : String
  «end» : String
  label : String
deriving DecidableEq

/-- Per-season accumulator of the seasonal detector. -/
structure SeasonAgg where
  spend : ℚ
  conversions : ℚ
  revenue : ℚ
  campaigns : ℕ
deriving DecidableEq

/-- The accumulator a season starts from when its key is first created. -/
def emptySeasonAgg : SeasonAgg := ⟨0, 0, 0, 0⟩

/-- Add one row's measures into a season's accumulator. -/
def addRowToSeason (d : SeasonAgg) (r : Row) : SeasonAgg :=
  { spend := d.spend + r.costMicros / 1000000
    conversions := d.conversions + r.conversionsVal
    revenue := d.revenue + r.conversionsValue
    campaigns := d.campaigns + 1 }

/-- Update the `monthlyData` object at key `s` (create-on-first-use, update
in place), preserving JavaScript's key-insertion order. -/
def insertSeasonRow : List (String × SeasonAgg) → String → Row → List (String × SeasonAgg)
  | [], s, r => [(s, addRowToSeason emptySeasonAgg r)]
  | (k, d) :: rest, s, r =>
    if k = s then (k, addRowToSeason d r) :: rest
    else (k, d) :: insertSeasonRow rest s r

/-- One season's reported summary. -/
structure SeasonSummary where
  totalSpend : String
  totalConversions : ℚ
  roas : String
  avgCampaigns : ℤ
deriving DecidableEq

/-- The per-season summary step of `detectSeasonalPatterns`: format the
totals, guard the ROAS division, and report `Math.round(campaigns / 3)`
(the fixed three-months-per-season divisor). -/
def seasonSummaryOf (d : SeasonAgg) : SeasonSummary :=
  { totalSpend := toFixed 2 d.spend
    totalConversions := d.conversions
    roas := if 0 < d.spend then toFixed 2 (d.revenue / d.spend) else "0"
    avgCampaigns := round ((d.campaigns : ℚ) / 3) }

/-- `detectSeasonalPatterns(campaignData, dateRanges).seasonal`: bucket the
rows by `getSeason` of their month index, then summarize each bucket;
`avgCampaigns` is `Math.round(campaigns / 3)` with the fixed divisor `3`.
The `dateRanges` argument is unused by the source function; the `trends`
and `recommendations` fields it initializes are never filled and are
omitted. -/
def detectSeasonalPatterns (campaignData : List Row) (_dateRanges : List DateInterval) :
    List (String × SeasonSummary) :=
  let monthlyData := campaignData.foldl
    (fun md data => insertSeasonRow md (getSeason data.month) data) []
  monthlyData.map (fun sd => (sd.1, seasonSummaryOf sd.2))

/-! ## Date-range resolver (`parseDateRequest`)

The resolver's regexes consist of literal words and the classes `\s+`,
`(\w+)` and `\d{n}`, with top-level alternation.  They are embedded as
token lists matched greedily; greediness is faithful here because in every
pattern each greedy class is followed by a token starting with a character
of a disjoint class (`\w`/`\s`/`\d` are pairwise disjoint and every literal
follows a `\s+`), so the regex engine's backtracking can never produce a
match the greedy matcher misses.  `reFind` scans left to right, which gives
the leftmost match exactly as `RegExp.exec`/`test`. -/

/-- Tokens of the resolver's regexes: a (case-sensitive) literal, `\s+`, the
capture `(\w+)`, and the capture-relevant digit run `\d{n}`. -/
inductive RTok where
  | lit (s : List Char)
  | ws
  | word
  | dig (n : ℕ)

/-- Match a token list at the start of `cs`, returning the captured `word`
and `dig` runs in order. -/
def tokMatchAt : List RTok → List Char → Option (List (List Char))
  | [], _ => some []
  | .lit w :: rest, cs =>
    if isPrefixChars w cs then tokMatchAt rest (cs.drop w.length) else none
  | .ws :: rest, cs =>
    if (cs.takeWhile isWsChar).isEmpty then none
    else tokMatchAt rest (cs.dropWhile isWsChar)
  | .word :: rest, cs =>
    let run := cs.takeWhile isWordChar
    if run.isEmpty then none
    else (tokMatchAt rest (cs.dropWhile isWordChar)).map (fun caps => run :: caps)
  | .dig n :: rest, cs =>
    let ds := cs.take n
    if ds.length == n && ds.all isDigitChar then
      (tokMatchAt rest (cs.drop n)).map (fun caps => ds :: caps)
    else none

/-- The number of `\s+` tokens of a pattern alternative (each consumes at
least one whitespace character of the subject). -/
def wsToks (toks : List RTok) : ℕ :=
  toks.countP (fun t => match t with | RTok.ws => true | _ => false)

/-- Try a list of alternatives at one position, in alternation order. -/
def tryAlts (alts : List (List RTok)) (cs : List Char) : Option (List (List Char)) :=
  match alts with
  | [] => none
  | t :: rest =>
    match tokMatchAt t cs with
    | some caps => some caps
    | none => tryAlts rest cs

/-- Scan for the leftmost match of any alternative. -/
def reFind (alts : List (List RTok)) : List Char → Option (List (List Char))
  | [] => tryAlts alts []
  | c :: cs =>
    match tryAlts alts (c :: cs) with
    | some caps => some caps
    | none => reFind alts cs

/-- `RegExp.test`. -/
def reTest (alts : List (List RTok)) (cs : List Char) : Bool :=
  (reFind alts cs).isSome

/-- Shorthand for a literal token. -/
def litT (s : String) : RTok := .lit s.data

/-- `/(?:this|current)\s+(\w+)\s+vs\s+last\s+year/i`. -/
def yoyAlts : List (List RTok) :=
  [[litT "this", .ws, .word, .ws, litT "vs", .ws, litT "last", .ws, litT "year"],
   [litT "current", .ws, .word, .ws, litT "vs", .ws, litT "last", .ws, litT "year"]]

/-- `/same\s+time\s+last\s+year|year\s+over\s+year|yoy/i`. -/
def lastYearSameAlts : List (List RTok) :=
  [[litT "same", .ws, litT "time", .ws, litT "last", .ws, litT "year"],
   [litT "year", .ws, litT "over", .ws, litT "year"],
   [litT "yoy"]]

/-- `/(?:4th of july|july 4th|fourth of july|independence day)/i`. -/
def holidayAlts : List (List RTok) :=
  [[litT "4th of july"], [litT "july 4th"], [litT "fourth of july"], [litT "independence day"]]

/-- `/from\s+(\d{4}-\d{2}-\d{2})\s+to\s+(\d{4}-\d{2}-\d{2})/i`, with each
captured date split into its three digit runs. -/
def customRangeAlt : List RTok :=
  [litT "from", .ws, .dig 4, litT "-", .dig 2, litT "-", .dig 2, .ws,
   litT "to", .ws, .dig 4, litT "-", .dig 2, litT "-", .dig 2]

/-- `/(\w+)\s+(\d{4})/i`. -/
def monthYearAlt : List RTok := [.word, .ws, .dig 4]

/-- `query.match(patterns.customRange)`: the two captured date strings. -/
def matchCustomRange (cs : List Char) : Option (String × String) :=
  match reFind [customRangeAlt] cs with
  | some [y1, m1, d1, y2, m2, d2] =>
    some (String.mk (y1 ++ '-' :: m1 ++ '-' :: d1), String.mk (y2 ++ '-' :: m2 ++ '-' :: d2))
  | _ => none

/-- `query.match(patterns.monthYear)`: captures `(\w+)` and `(\d{4})`.  The
fallthrough arm is unreachable: this pattern always produces exactly two
captures. -/
def matchMonthYear (cs : List Char) : Option (String × String) :=
  match reFind [monthYearAlt] cs with
  | some [w, y] => some (String.mk w, String.mk y)
  | _ => none

/-- The month-name lookup table of `parseMonth`. -/
def monthsTable : List (String × ℕ) :=
  [("january", 1), ("jan", 1), ("february", 2), ("feb", 2), ("march", 3), ("mar", 3),
   ("april", 4), ("apr", 4), ("may", 5), ("june", 6), ("jun", 6), ("july", 7), ("jul", 7),
   ("august", 8), ("aug", 8), ("september", 9), ("sep", 9), ("october", 10), ("oct", 10),
   ("november", 11), ("nov", 11), ("december", 12), ("dec", 12)]

/-- The `Object.prototype` property names that are themselves all
lowercase.  The source's month table is a plain object literal, so
`months[key]` consults the prototype chain: when `key` names an inherited
`Object.prototype` member, the lookup yields that member — a truthy
function (or, for `__proto__`, an object) — instead of `undefined`, and
the `|| 1` default is skipped.  The lookup key is always a `toLowerCase`
image, so of the standard prototype members (`constructor`,
`hasOwnProperty`, `isPrototypeOf`, `propertyIsEnumerable`,
`toLocaleString`, `toString`, `valueOf`, `__proto__`, `__defineGetter__`,
`__defineSetter__`, `__lookupGetter__`, `__lookupSetter__`) only these two
all-lowercase names are reachable. -/
def objectProtoLowerKeys : List String := ["constructor", "__proto__"]

/-- `parseMonth(monthStr)`: `months[monthStr.toLowerCase()] || 1` — table
lookup on the lowered string, defaulting to `1` (January) when the lookup
yields `undefined`.  Caveat: for a lookup key in `objectProtoLowerKeys`
the JavaScript lookup is answered from the prototype chain with a truthy
non-number, the `|| 1` default is skipped, and downstream string
interpolation and `Date` construction produce implementation-defined
output (a function-source string and a `NaN` day-of-month).  That
non-numeric path is outside this numeric model; every theorem about the
resolver excludes those two keys explicitly. -/
def parseMonth (monthStr : String) : ℕ :=
  (List.lookup (strLower monthStr) monthsTable).getD 1

/-- `getMonthName`'s table. -/
def monthNames : List String :=
  ["January", "February", "March", "April", "May", "June",
   "July", "August", "September", "October", "November", "December"]

/-- `getMonthName(monthNum)`: `months[monthNum - 1] || 'Unknown'`.  For
`monthNum = 0` JavaScript reads index `-1` (`undefined`), hence
`'Unknown'`. -/
def getMonthName (monthNum : ℕ) : String :=
  if monthNum = 0 then "Unknown" else monthNames.getD (monthNum - 1) "Unknown"

/-- Gregorian leap-year test, as `Date` implements for all (astronomical)
years. -/
def isLeapYear (y : ℤ) : Bool :=
  (y % 4 == 0 && y % 100 != 0) || y % 400 == 0

/-- `new Date(year, month, 0).getDate()` for `month` 1-based: the number of
days of that calendar month.  The `Date` constructor maps year arguments
0–99 to 1900–1999 before the leap test. -/
def daysInMonth (y : ℤ) (m : ℕ) : ℕ :=
  let yy : ℤ := if 0 ≤ y ∧ y ≤ 99 then 1900 + y else y
  if m = 2 then (if isLeapYear yy then 29 else 28)
  else if m = 4 ∨ m = 6 ∨ m = 9 ∨ m = 11 then 30
  else 31

/-- `String(n).padStart(2, '0')`. -/
def pad2 (n : ℕ) : String :=
  let s := toString n
  if s.length < 2 then "0" ++ s else s

/-- The pieces of the JavaScript `Date` value `now` that
`parseDateRequest` reads.  The system clock and `Date`'s ISO formatting are
external inputs to the engine and enter the model through this record. -/
structure NowInfo where
  fullYear : ℤ
  month0 : ℕ
  isoToday : String
  isoThirtyDaysAgo : String

/-- The result record of `parseDateRequest`. -/
structure DateRequest where
  primary : DateInterval
  comparison : DateInterval
  type : String
deriving DecidableEq

/-- The initial `comparison` interval (`start: null, end: null, label: ''`). -/
def emptyInterval : DateInterval := ⟨"", "", ""⟩

/-- `parseDateRequest(query)`: ordered first-match cascade over the date
patterns.  Tests run on the lowered query (`/i`); the month/year captures
are taken from the original query, as `String.prototype.match` returns the
original-case substrings (the pattern itself has no cased literal). -/
def parseDateRequest (now : NowInfo) (query : String) : DateRequest :=
  let q := (strLower query).data
  if reTest yoyAlts q || reTest lastYearSameAlts q then
    let thisYear := now.fullYear
    let lastYear := thisYear - 1
    if reTest holidayAlts q then
      { primary := ⟨toString thisYear ++ "-06-15", toString thisYear ++ "-07-15",
                    "July 4th " ++ toString thisYear⟩
        comparison := ⟨toString lastYear ++ "-06-15", toString lastYear ++ "-07-15",
                       "July 4th " ++ toString lastYear⟩
        type := "comparison" }
    else
      let currentMonth := now.month0 + 1
      { primary := ⟨toString thisYear ++ "-" ++ pad2 currentMonth ++ "-01",
                    toString thisYear ++ "-" ++ pad2 currentMonth ++ "-" ++
                      toString (daysInMonth thisYear currentMonth),
                    getMonthName currentMonth ++ " " ++ toString thisYear⟩
        comparison := ⟨toString lastYear ++ "-" ++ pad2 currentMonth ++ "-01",
                       toString lastYear ++ "-" ++ pad2 currentMonth ++ "-" ++
                         toString (daysInMonth lastYear currentMonth),
                       getMonthName currentMonth ++ " " ++ toString lastYear⟩
        type := "comparison" }
  else
    match matchCustomRange q with
    | some dd =>
      { primary := ⟨dd.1, dd.2, dd.1 ++ " to " ++ dd.2⟩
        comparison := emptyInterval, type := "single" }
    | none =>
      match matchMonthYear query.data with
      | some wy =>
        let month := parseMonth wy.1
        let year : ℕ := digitsToNat wy.2.data
        { primary := ⟨toString year ++ "-" ++ pad2 month ++ "-01",
                      toString year ++ "-" ++ pad2 month ++ "-" ++
                        toString (daysInMonth (year : ℤ) month),
                      wy.1 ++ " " ++ toString year⟩
          comparison := emptyInterval, type := "single" }
      | none =>
        { primary := ⟨now.isoThirtyDaysAgo, now.isoToday, "Last 30 Days"⟩
          comparison := emptyInterval, type := "single" }

/-! ## Comparison executor (`executeComparison`, server file) -/

/-- The shape `executeGAQLQuery` resolves to: a success flag with the row
data (`error` details beyond the flag are not read by the executor). -/
structure GAQLResult where
  success : Bool
  data : List Row
deriving DecidableEq

/-- `executeComparison(accountId, period1, period2, …)`: issue the two
upstream queries (`Promise.all`: a rejection of either — the first in array
order when both reject — rejects the pair), reject unless both results
report success, otherwise compare the two row sets.  Every failure path
routes through the surrounding `catch`, which rethrows with the
`Comparison failed: ` prefix.  The query built for each period is absorbed
into the executor argument `executeGAQLQuery`, which the theorems quantify
over, so the query text plays no role. -/
def executeComparison (executeGAQLQuery : DateInterval → Except String GAQLResult)
    (period1 period2 : DateInterval) : Except String Comparison :=
  match executeGAQLQuery period1 with
  | .error e => .error ("Comparison failed: " ++ e)
  | .ok result1 =>
    match executeGAQLQuery period2 with
    | .error e => .error ("Comparison failed: " ++ e)
    | .ok result2 =>
      if !result1.success || !result2.success then
        .error ("Comparison failed: " ++ "Failed to fetch comparison data")
      else
        .ok (comparePerformance result1.data result2.data period1.label period2.label)

/-! ## Concrete sample data used by witnesses and counterexamples -/

/-- A sample row with nonzero metrics. -/
def rowA : Row :=
  { metrics := some { cost_micros := some 5000000, conversions := some 3, clicks := some 10,
                      conversions_value := some 20, impressions := some 100 } }

/-- A second, different sample row. -/
def rowB : Row :=
  { metrics := some { cost_micros := some 2000000, conversions := some 1, clicks := some 4,
                      conversions_value := some 6, impressions := some 50 } }

/-- Campaign row named "Summer Sale Blowout". -/
def summerCampaign : Row := { campaignName := some "Summer Sale Blowout" }

/-- Campaign row named "Winter Clearance". -/
def winterCampaign : Row := { campaignName := some "Winter Clearance" }

/-- A sample clock: June 2024. -/
def testNow : NowInfo :=
  { fullYear := 2024, month0 := 5, isoToday := "2024-06-15", isoThirtyDaysAgo := "2024-05-16" }

/-- An upstream executor that always fails. -/
def failingExec : DateInterval → Except String GAQLResult :=
  fun _ => .error "upstream down"

/-- A row dated in December (0-based month index 11). -/
def decemberRow : Row := { month := 11 }

/-- A row whose conversions value is the binary64 significand boundary
`2^53` (exactly representable; `2^53 + 1` is not). -/
def fpRowBig : Row := { metrics := some { conversions := some ((2 : ℚ) ^ 53) } }

/-- A row with a single conversion. -/
def fpRowOne : Row := { metrics := some { conversions := some 1 } }

/-- Reads the totals component named by one of the comparator's metric
keys; used to state aggregate-level hypotheses about one metric. -/
def Totals.select (t : Totals) (metric : String) : ℚ :=
  if metric = "spend" then t.spend
  else if metric = "conversions" then t.conversions
  else if metric = "clicks" then t.clicks
  else if metric = "revenue" then t.revenue
  else 0

/-! ## General lemmas about the embedded primitives -/

theorem toFixed_one_zero : toFixed 1 (0 : ℚ) = "0.0" := by
  norm_num [toFixed]
  rfl

theorem toFixed_two_zero : toFixed 2 (0 : ℚ) = "0.00" := by
  norm_num [toFixed]
  rfl

theorem jsParseFloatOr0_zero_str : jsParseFloatOr0 "0.00" = 0 := by
  have h : jsParseFloatParts "0.00" = some (false, ['0'], ['0', '0']) := by decide
  have d1 : digitsToNat ['0'] = 0 := by decide
  have d2 : digitsToNat ['0', '0'] = 0 := by decide
  norm_num [jsParseFloatOr0, jsParseFloat, h, d1, d2, fracOfDigits]

theorem lookup_cons_self {β : Type} (k : String) (b : β) (l : List (String × β)) :
    List.lookup k ((k, b) :: l) = some b := by
  simp [List.lookup]

theorem lookup_cons_ne {β : Type} (m k : String) (h : m ≠ k) (b : β) (l : List (String × β)) :
    List.lookup m ((k, b) :: l) = List.lookup m l := by
  have hb : (m == k) = false := beq_eq_false_iff_ne.mpr h
  simp [List.lookup, hb]

theorem lookup_filterMap_none (f : String → Option Change) (keys : List String) (m : String)
    (h : m ∉ keys) :
    List.lookup m (keys.filterMap (fun k => (f k).map (fun c => (k, c)))) = none := by
  induction keys with
  | nil => simp
  | cons k ks ih =>
    have hmk : m ≠ k := fun e => h (e ▸ List.mem_cons_self k ks)
    have hks : m ∉ ks := fun hm => h (List.mem_cons_of_mem _ hm)
    cases hfk : f k with
    | none => simpa [List.filterMap_cons, hfk] using ih hks
    | some c =>
      simp only [List.filterMap_cons, hfk, Option.map_some']
      rw [lookup_cons_ne m k hmk]
      exact ih hks

theorem lookup_filterMap_mem (f : String → Option Change) (keys : List String) (m : String)
    (hm : m ∈ keys) (hnd : keys.Nodup) :
    List.lookup m (keys.filterMap (fun k => (f k).map (fun c => (k, c)))) = f m := by
  induction keys with
  | nil => cases hm
  | cons k ks ih =>
    rcases List.mem_cons.mp hm with rfl | hmk
    · have hknot : m ∉ ks := (List.nodup_cons.mp hnd).1
      cases hfk : f m with
      | none =>
        simpa [List.filterMap_cons, hfk] using lookup_filterMap_none f ks m hknot
      | some c =>
        simp only [List.filterMap_cons, hfk, Option.map_some']
        rw [lookup_cons_self]
    · have hne : m ≠ k := by
        rintro rfl
        exact (List.nodup_cons.mp hnd).1 hmk
      cases hfk : f k with
      | none =>
        simpa [List.filterMap_cons, hfk] using ih hmk (List.nodup_cons.mp hnd).2
      | some c =>
        simp only [List.filterMap_cons, hfk, Option.map_some']
        rw [lookup_cons_ne m k hne]
        exact ih hmk (List.nodup_cons.mp hnd).2

theorem lookup_changesList (p1 p2 : PeriodMetrics) (m : String) (hm : m ∈ comparisonMetrics) :
    List.lookup m (changesList p1 p2) = changeFor p1 p2 m :=
  lookup_filterMap_mem (changeFor p1 p2) comparisonMetrics m hm (by decide)

theorem metricVal_spend (d : List Row) (l : String) :
    metricVal (calculatePeriodMetrics d l) "spend" = jsParseFloatOr0 (toFixed 2 (totalsOf d).spend) := rfl

theorem metricVal_conversions (d : List Row) (l : String) :
    metricVal (calculatePeriodMetrics d l) "conversions" = (totalsOf d).conversions := rfl

theorem metricVal_clicks (d : List Row) (l : String) :
    metricVal (calculatePeriodMetrics d l) "clicks" = (totalsOf d).clicks := rfl

theorem metricVal_revenue (d : List Row) (l : String) :
    metricVal (calculatePeriodMetrics d l) "revenue" = jsParseFloatOr0 (toFixed 2 (totalsOf d).revenue) := rfl

theorem accRow_rightCommutative : RightCommutative accRow := by
  refine ⟨fun b a₁ a₂ => ?_⟩
  simp only [accRow, Totals.mk.injEq]
  refine ⟨?_, ?_, ?_, ?_, ?_⟩ <;> ring

theorem totalsOf_perm (l₁ l₂ : List Row) (h : l₁.Perm l₂) : totalsOf l₁ = totalsOf l₂ := by
  have := accRow_rightCommutative
  exact h.foldl_eq _

/-! ## Claim theorems: the period comparator and aggregator -/

/-- C3: for the empty row sequence and any label, `calculatePeriodMetrics`
returns zero totals and campaign count, with the guarded ratio fields at
their literal zero strings (`roas = "0"`, `conversionRate = ctr = "0%"`)
and the formatted zero totals `spend = revenue = "0.00"` — the function is
total (never throws) and, the divisions being guarded by strictly-positive
denominator checks, no `NaN`/`Infinity` value can arise in this model. -/
theorem calculatePeriodMetrics_empty (label : String) :
    calculatePeriodMetrics [] label =
      { label := label, campaigns := 0, spend := "0.00", conversions := 0, clicks := 0,
        revenue := "0.00", impressions := 0, roas := "0", conversionRate := "0%", ctr := "0%" } := by
  norm_num [calculatePeriodMetrics, totalsOf, toFixed]
  rfl

/-- C4 (amended): in exact arithmetic — equivalently, whenever the running
sums incur no binary64 rounding — `calculatePeriodMetrics` is
order-independent: permuting the input rows yields an identical result.
As the program computes it, with IEEE binary64 `+=`, the aggregation is
order-dependent (see the counterexample on the binary64 variant of the
aggregator below). -/
theorem calculatePeriodMetrics_perm (l₁ l₂ : List Row) (label : String) (h : l₁.Perm l₂) :
    calculatePeriodMetrics l₁ label = calculatePeriodMetrics l₂ label := by
  simp only [calculatePeriodMetrics, totalsOf_perm l₁ l₂ h, h.length_eq]

theorem calculatePeriodMetrics_perm_witness :
    calculatePeriodMetrics [rowA, rowB] "p" = calculatePeriodMetrics [rowB, rowA] "p" :=
  calculatePeriodMetrics_perm [rowA, rowB] [rowB, rowA] "p" (List.Perm.swap rowB rowA [])

theorem int_log_eq_of_bounds {r : ℚ} {z : ℤ} (hr : 0 < r) (h1 : (2 : ℚ) ^ z ≤ r)
    (h2 : r < (2 : ℚ) ^ (z + 1)) : Int.log 2 r = z := by
  have h1' : ((2 : ℕ) : ℚ) ^ z ≤ r := by exact_mod_cast h1
  have h2' : r < ((2 : ℕ) : ℚ) ^ (z + 1) := by exact_mod_cast h2
  have ha := (Int.zpow_le_iff_le_log one_lt_two hr).mp h1'
  have hb := (Int.lt_zpow_iff_log_lt one_lt_two hr).mp h2'
  omega

theorem roundEven_intCast (n : ℤ) : roundEven (n : ℚ) = n := by
  unfold roundEven
  rw [Int.floor_intCast]
  norm_num

theorem roundEven_add_half_even (n : ℤ) (hn : Even n) : roundEven ((n : ℚ) + 1 / 2) = n := by
  have hf : ⌊(n : ℚ) + 1 / 2⌋ = n := by
    rw [Int.floor_eq_iff]
    constructor <;> norm_num
  simp only [roundEven, hf]
  rw [show (n : ℚ) + 1 / 2 - (n : ℚ) = 1 / 2 from by ring]
  rw [if_neg (by norm_num), if_neg (by norm_num), if_pos hn]

theorem fl64_eval {q : ℚ} {e n : ℤ} (hq : 0 < q) (h1 : (2 : ℚ) ^ (e + 52) ≤ q)
    (h2 : q < (2 : ℚ) ^ (e + 53)) (hr : roundEven (q / 2 ^ e) = n) :
    fl64 q = (n : ℚ) * 2 ^ e := by
  have habs : |q| = q := abs_of_pos hq
  have hlog : Int.log 2 q = e + 52 :=
    int_log_eq_of_bounds hq h1 (by rw [show e + 52 + 1 = e + 53 from by ring]; exact h2)
  unfold fl64
  rw [if_neg (ne_of_gt hq), if_neg (not_lt.mpr (le_of_lt hq))]
  simp only [habs, hlog, show e + 52 - 52 = e from by ring, hr]
  ring

theorem fl64_pow53 : fl64 ((2 : ℚ) ^ 53) = 2 ^ 53 := by
  have h : fl64 ((2 : ℚ) ^ 53) = ((2 ^ 52 : ℤ) : ℚ) * 2 ^ (1 : ℤ) := by
    apply fl64_eval (by norm_num)
    · norm_num
    · norm_num
    · rw [show ((2 : ℚ) ^ 53) / 2 ^ (1 : ℤ) = ((2 ^ 52 : ℤ) : ℚ) from by push_cast; norm_num]
      exact roundEven_intCast _
  rw [h]
  push_cast
  norm_num

theorem fl64_pow53_add_one : fl64 ((2 : ℚ) ^ 53 + 1) = 2 ^ 53 := by
  have h : fl64 ((2 : ℚ) ^ 53 + 1) = ((2 ^ 52 : ℤ) : ℚ) * 2 ^ (1 : ℤ) := by
    apply fl64_eval (by norm_num)
    · norm_num
    · norm_num
    · rw [show ((2 : ℚ) ^ 53 + 1) / 2 ^ (1 : ℤ) = ((2 ^ 52 : ℤ) : ℚ) + 1 / 2 from by
        push_cast; norm_num]
      exact roundEven_add_half_even _ ⟨2 ^ 51, by norm_num⟩
  rw [h]
  push_cast
  norm_num

theorem fl64_pow53_add_two : fl64 ((2 : ℚ) ^ 53 + 2) = 2 ^ 53 + 2 := by
  have h : fl64 ((2 : ℚ) ^ 53 + 2) = ((2 ^ 52 + 1 : ℤ) : ℚ) * 2 ^ (1 : ℤ) := by
    apply fl64_eval (by norm_num)
    · norm_num
    · norm_num
    · rw [show ((2 : ℚ) ^ 53 + 2) / 2 ^ (1 : ℤ) = ((2 ^ 52 + 1 : ℤ) : ℚ) from by
        push_cast; norm_num]
      exact roundEven_intCast _
  rw [h]
  push_cast
  norm_num

theorem fl64_one : fl64 (1 : ℚ) = 1 := by
  have h : fl64 (1 : ℚ) = ((2 ^ 52 : ℤ) : ℚ) * 2 ^ (-52 : ℤ) := by
    apply fl64_eval (by norm_num)
    · norm_num
    · norm_num
    · rw [show (1 : ℚ) / 2 ^ (-52 : ℤ) = ((2 ^ 52 : ℤ) : ℚ) from by
        rw [zpow_neg]
        push_cast
        norm_num]
      exact roundEven_intCast _
  rw [h]
  push_cast
  rw [zpow_neg]
  norm_num

theorem fl64_two : fl64 (2 : ℚ) = 2 := by
  have h : fl64 (2 : ℚ) = ((2 ^ 52 : ℤ) : ℚ) * 2 ^ (-51 : ℤ) := by
    apply fl64_eval (by norm_num)
    · norm_num
    · norm_num
    · rw [show (2 : ℚ) / 2 ^ (-51 : ℤ) = ((2 ^ 52 : ℤ) : ℚ) from by
        rw [zpow_neg]
        push_cast
        norm_num]
      exact roundEven_intCast _
  rw [h]
  push_cast
  rw [zpow_neg]
  norm_num

theorem fladd_chain_big_first :
    fladd (fladd (fladd 0 ((2 : ℚ) ^ 53)) 1) 1 = 2 ^ 53 := by
  simp only [fladd, zero_add]
  rw [fl64_pow53, fl64_pow53_add_one, fl64_pow53_add_one]

theorem fladd_chain_big_last :
    fladd (fladd (fladd 0 1) 1) ((2 : ℚ) ^ 53) = 2 ^ 53 + 2 := by
  simp only [fladd, zero_add]
  rw [fl64_one, show (1 : ℚ) + 1 = 2 from by norm_num, fl64_two,
    show (2 : ℚ) + 2 ^ 53 = 2 ^ 53 + 2 from by ring, fl64_pow53_add_two]

/-- C4 counterexample: as the program computes it — IEEE binary64 `+=`,
each addition correctly rounded — the aggregation is order-dependent: for
rows with conversions `2^53, 1, 1`, summing in that order gives `2^53`
(each intermediate `2^53 + 1` is a tie rounded back to the even `2^53`),
while the permuted order `1, 1, 2^53` gives `2^53 + 2`, so
`calculatePeriodMetrics` does not return an identical result on a
permutation of its input. -/
theorem calculatePeriodMetricsFP_order_counterexample :
    [fpRowBig, fpRowOne, fpRowOne].Perm [fpRowOne, fpRowOne, fpRowBig] ∧
    calculatePeriodMetricsFP [fpRowBig, fpRowOne, fpRowOne] "x" ≠
      calculatePeriodMetricsFP [fpRowOne, fpRowOne, fpRowBig] "x" := by
  constructor
  · exact (List.Perm.swap fpRowOne fpRowBig [fpRowOne]).trans
      (List.Perm.cons fpRowOne (List.Perm.swap fpRowOne fpRowBig []))
  · intro h
    have hc := congrArg PeriodMetrics.conversions h
    have hA : (calculatePeriodMetricsFP [fpRowBig, fpRowOne, fpRowOne] "x").conversions =
        fladd (fladd (fladd 0 ((2 : ℚ) ^ 53)) 1) 1 := rfl
    have hB : (calculatePeriodMetricsFP [fpRowOne, fpRowOne, fpRowBig] "x").conversions =
        fladd (fladd (fladd 0 1) 1) ((2 : ℚ) ^ 53) := rfl
    rw [hA, hB, fladd_chain_big_first, fladd_chain_big_last] at hc
    norm_num at hc

/-- C1: whenever the two periods' aggregated values agree on a metric and
the comparator's baseline value for that metric is strictly positive, the
emitted change entry has percentage `"0.0%"` and direction `"decrease"`
(`0` fails the strict `> 0` test), with zero absolute change and magnitude
`"modest"`. -/
theorem comparePerformance_equal_values_zero_decrease
    (d1 d2 : List Row) (l1 l2 : String) (m : String) (hm : m ∈ comparisonMetrics)
    (heq : (totalsOf d1).select m = (totalsOf d2).select m)
    (hpos : 0 < metricVal (calculatePeriodMetrics d2 l2) m) :
    List.lookup m (comparePerformance d1 d2 l1 l2).changes =
      some { absolute := 0, percentage := "0.0%", direction := "decrease", magnitude := "modest" } := by
  have hch : (comparePerformance d1 d2 l1 l2).changes =
      changesList (calculatePeriodMetrics d1 l1) (calculatePeriodMetrics d2 l2) := rfl
  rw [hch, lookup_changesList _ _ _ hm]
  have hm4 : m = "spend" ∨ m = "conversions" ∨ m = "clicks" ∨ m = "revenue" := by
    simpa [comparisonMetrics] using hm
  have hval : metricVal (calculatePeriodMetrics d1 l1) m = metricVal (calculatePeriodMetrics d2 l2) m := by
    rcases hm4 with rfl | rfl | rfl | rfl
    · have h : (totalsOf d1).spend = (totalsOf d2).spend := by simpa [Totals.select] using heq
      rw [metricVal_spend, metricVal_spend, h]
    · have h : (totalsOf d1).conversions = (totalsOf d2).conversions := by
        simpa [Totals.select] using heq
      rw [metricVal_conversions, metricVal_conversions, h]
    · have h : (totalsOf d1).clicks = (totalsOf d2).clicks := by simpa [Totals.select] using heq
      rw [metricVal_clicks, metricVal_clicks, h]
    · have h : (totalsOf d1).revenue = (totalsOf d2).revenue := by simpa [Totals.select] using heq
      rw [metricVal_revenue, metricVal_revenue, h]
  simp only [changeFor, hval, if_pos hpos]
  norm_num [toFixed_one_zero]
  rfl

theorem comparePerformance_equal_values_witness :
    List.lookup "conversions" (comparePerformance [rowA] [rowA] "a" "b").changes =
      some { absolute := 0, percentage := "0.0%", direction := "decrease", magnitude := "modest" } :=
  comparePerformance_equal_values_zero_decrease [rowA] [rowA] "a" "b" "conversions"
    (by decide) rfl
    (by
      rw [metricVal_conversions]
      norm_num [totalsOf, accRow, Row.conversionsVal, rowA])

/-- C2: when the baseline period's aggregated value for a metric is `0`,
the comparator omits that metric from `changes` entirely — the division is
skipped, not zero-filled. -/
theorem comparePerformance_zero_baseline_omitted
    (d1 d2 : List Row) (l1 l2 : String) (m : String) (hm : m ∈ comparisonMetrics)
    (hzero : (totalsOf d2).select m = 0) :
    List.lookup m (comparePerformance d1 d2 l1 l2).changes = none := by
  have hch : (comparePerformance d1 d2 l1 l2).changes =
      changesList (calculatePeriodMetrics d1 l1) (calculatePeriodMetrics d2 l2) := rfl
  rw [hch, lookup_changesList _ _ _ hm]
  have hm4 : m = "spend" ∨ m = "conversions" ∨ m = "clicks" ∨ m = "revenue" := by
    simpa [comparisonMetrics] using hm
  have hv2 : metricVal (calculatePeriodMetrics d2 l2) m = 0 := by
    rcases hm4 with rfl | rfl | rfl | rfl
    · rw [metricVal_spend]
      have h : (totalsOf d2).spend = 0 := by simpa [Totals.select] using hzero
      rw [h, toFixed_two_zero]
      exact jsParseFloatOr0_zero_str
    · rw [metricVal_conversions]
      simpa [Totals.select] using hzero
    · rw [metricVal_clicks]
      simpa [Totals.select] using hzero
    · rw [metricVal_revenue]
      have h : (totalsOf d2).revenue = 0 := by simpa [Totals.select] using hzero
      rw [h, toFixed_two_zero]
      exact jsParseFloatOr0_zero_str
  simp only [changeFor, hv2]
  rw [if_neg (lt_irrefl 0)]

theorem comparePerformance_zero_baseline_witness :
    List.lookup "conversions" (comparePerformance [rowA] [] "a" "b").changes = none :=
  comparePerformance_zero_baseline_omitted [rowA] [] "a" "b" "conversions" (by decide) rfl

/-- C10: every insight `comparePerformance` emits is one of exactly two
positive statements: the conversions insight, present iff the conversions
change entry has direction `"increase"`, and the ROAS insight, present iff
period1's parsed ROAS strictly exceeds period2's; the two conditions are
evaluated independently (both insights co-occur when both hold), and
nothing is emitted for decreases or any other metric. -/
theorem comparePerformance_insights_spec (d1 d2 : List Row) (l1 l2 : String) :
    ((comparePerformance d1 d2 l1 l2).insights.length =
      (if (List.lookup "conversions" (comparePerformance d1 d2 l1 l2).changes).map Change.direction
          = some "increase" then 1 else 0) +
      (if jsNumGt (jsParseFloat (comparePerformance d1 d2 l1 l2).period1.roas)
          (jsParseFloat (comparePerformance d1 d2 l1 l2).period2.roas) = true then 1 else 0)) ∧
    (∀ i : Insight, i ∈ (comparePerformance d1 d2 l1 l2).insights ↔
      (((List.lookup "conversions" (comparePerformance d1 d2 l1 l2).changes).map Change.direction
          = some "increase") ∧
        i = { type := "positive"
              message := "Conversions improved by " ++
                ((List.lookup "conversions" (comparePerformance d1 d2 l1 l2).changes).elim ""
                  Change.percentage) ++ " compared to " ++ l2 }) ∨
      ((jsNumGt (jsParseFloat (comparePerformance d1 d2 l1 l2).period1.roas)
          (jsParseFloat (comparePerformance d1 d2 l1 l2).period2.roas) = true) ∧
        i = { type := "positive"
              message := "ROAS improved by " ++
                toFixed 2 ((jsParseFloat (comparePerformance d1 d2 l1 l2).period1.roas).getD 0 -
                  (jsParseFloat (comparePerformance d1 d2 l1 l2).period2.roas).getD 0) ++
                " (" ++ (comparePerformance d1 d2 l1 l2).period1.roas ++ " vs " ++
                (comparePerformance d1 d2 l1 l2).period2.roas ++ ")" })) := by
  by_cases hc :
      (List.lookup "conversions"
        (changesList (calculatePeriodMetrics d1 l1) (calculatePeriodMetrics d2 l2))).map
        Change.direction = some "increase" <;>
    by_cases hr :
        jsNumGt (jsParseFloat (calculatePeriodMetrics d1 l1).roas)
          (jsParseFloat (calculatePeriodMetrics d2 l2).roas) = true <;>
    constructor <;>
    simp [comparePerformance, hc, hr]

/-! ## Claim theorems: the intent classifier -/

/-- C7 (amended): `detectQueryIntent` is the ordered first-match cascade
over the four pattern regexes with fallback `"single_period"` — but its
range has five values, not four: the `trend` pattern row yields the return
value `"trend"`, which is outside the claimed variant set
{comparison, seasonal, campaign_search, single_period}. -/
theorem detectQueryIntent_spec (q : String) :
    detectQueryIntent q =
      (if regexTestCI ["vs", "versus", "compare", "compared to", "against"] q then "comparison"
       else if regexTestCI ["seasonal", "summer", "winter", "spring", "fall", "autumn", "holiday"] q
         then "seasonal"
       else if regexTestCI ["campaign with", "campaigns with", "find campaigns",
           "campaigns containing", "campaigns like"] q then "campaign_search"
       else if regexTestCI ["trend", "over time", "pattern", "growth"] q then "trend"
       else "single_period") ∧
    (detectQueryIntent q = "comparison" ∨ detectQueryIntent q = "seasonal" ∨
     detectQueryIntent q = "campaign_search" ∨ detectQueryIntent q = "trend" ∨
     detectQueryIntent q = "single_period") := by
  have e : detectQueryIntent q =
      (if regexTestCI ["vs", "versus", "compare", "compared to", "against"] q then "comparison"
       else if regexTestCI ["seasonal", "summer", "winter", "spring", "fall", "autumn", "holiday"] q
         then "seasonal"
       else if regexTestCI ["campaign with", "campaigns with", "find campaigns",
           "campaigns containing", "campaigns like"] q then "campaign_search"
       else if regexTestCI ["trend", "over time", "pattern", "growth"] q then "trend"
       else "single_period") := by
    simp only [detectQueryIntent, intentPatterns, List.find?]
    cases h1 : regexTestCI ["vs", "versus", "compare", "compared to", "against"] q <;>
      cases h2 : regexTestCI ["seasonal", "summer", "winter", "spring", "fall", "autumn",
        "holiday"] q <;>
      cases h3 : regexTestCI ["campaign with", "campaigns with", "find campaigns",
        "campaigns containing", "campaigns like"] q <;>
      cases h4 : regexTestCI ["trend", "over time", "pattern", "growth"] q <;>
      simp [h1, h2, h3, h4]
  refine ⟨e, ?_⟩
  rw [e]
  split_ifs <;> simp

/-- C7 counterexample: on the query `"growth"` the classifier returns the
fifth value `"trend"`, which is none of the four claimed variants. -/
theorem detectQueryIntent_growth_counterexample :
    detectQueryIntent "growth" = "trend" ∧
    ¬(detectQueryIntent "growth" = "comparison" ∨ detectQueryIntent "growth" = "seasonal" ∨
      detectQueryIntent "growth" = "campaign_search" ∨
      detectQueryIntent "growth" = "single_period") := by
  decide

/-! ## Claim theorems: the campaign pattern matcher -/

theorem findCampaignPatterns_summer_sale_eval :
    findCampaignPatterns "summer sale" [summerCampaign, winterCampaign] =
      [{ campaign := summerCampaign, matchType := "holiday", relevanceScore := 100 },
       { campaign := summerCampaign, matchType := "seasonal", relevanceScore := 100 },
       { campaign := summerCampaign, matchType := "promotional", relevanceScore := 100 },
       { campaign := winterCampaign, matchType := "seasonal", relevanceScore := 0 }] := by
  have h1 : calculateRelevance "summer sale" (strLower (summerCampaign.campaignName.getD ""))
      = ((2 : ℕ) : ℚ) / ((2 : ℕ) : ℚ) * 100 := rfl
  have h2 : calculateRelevance "summer sale" (strLower (winterCampaign.campaignName.getD ""))
      = ((0 : ℕ) : ℚ) / ((2 : ℕ) : ℚ) * 100 := rfl
  have h1' : calculateRelevance "summer sale" (strLower (summerCampaign.campaignName.getD ""))
      = 100 := by rw [h1]; norm_num
  have h2' : calculateRelevance "summer sale" (strLower (winterCampaign.campaignName.getD ""))
      = 0 := by rw [h2]; norm_num
  calc findCampaignPatterns "summer sale" [summerCampaign, winterCampaign]
      = sortByScoreDesc
          [{ campaign := summerCampaign, matchType := "holiday",
             relevanceScore := calculateRelevance "summer sale"
               (strLower (summerCampaign.campaignName.getD "")) },
           { campaign := summerCampaign, matchType := "seasonal",
             relevanceScore := calculateRelevance "summer sale"
               (strLower (summerCampaign.campaignName.getD "")) },
           { campaign := summerCampaign, matchType := "promotional",
             relevanceScore := calculateRelevance "summer sale"
               (strLower (summerCampaign.campaignName.getD "")) },
           { campaign := winterCampaign, matchType := "seasonal",
             relevanceScore := calculateRelevance "summer sale"
               (strLower (winterCampaign.campaignName.getD "")) }] := rfl
    _ = sortByScoreDesc
          [{ campaign := summerCampaign, matchType := "holiday", relevanceScore := 100 },
           { campaign := summerCampaign, matchType := "seasonal", relevanceScore := 100 },
           { campaign := summerCampaign, matchType := "promotional", relevanceScore := 100 },
           { campaign := winterCampaign, matchType := "seasonal", relevanceScore := 0 }] := by
        rw [h1', h2']
    _ = [{ campaign := summerCampaign, matchType := "holiday", relevanceScore := 100 },
         { campaign := summerCampaign, matchType := "seasonal", relevanceScore := 100 },
         { campaign := summerCampaign, matchType := "promotional", relevanceScore := 100 },
         { campaign := winterCampaign, matchType := "seasonal", relevanceScore := 0 }] := by
        norm_num [sortByScoreDesc, insertByScore]

/-- C5 counterexample: on the query `"summer sale"` against the two
campaigns, the matcher does not return exactly one match — it returns four
(the holiday theme also fires, since its alternation contains the literal
`summer sale`; each matching theme fans out into its own match; and the
second campaign matches the seasonal theme, whose regex matches `summer` in
the query and `winter` in the name independently, with relevance `0`). -/
theorem findCampaignPatterns_summer_sale_counterexample :
    (findCampaignPatterns "summer sale" [summerCampaign, winterCampaign]).length ≠ 1 := by
  rw [findCampaignPatterns_summer_sale_eval]
  simp

/-- C5 (amended): `findCampaignPatterns("summer sale", [Summer Sale
Blowout, Winter Clearance])` returns exactly four matches in this order:
the first campaign with matchTypes `holiday`, `seasonal` and `promotional`
(each with relevanceScore 100 > 0), then the second campaign with matchType
`seasonal` and relevanceScore 0. -/
theorem findCampaignPatterns_summer_sale_matches :
    findCampaignPatterns "summer sale" [summerCampaign, winterCampaign] =
      [{ campaign := summerCampaign, matchType := "holiday", relevanceScore := 100 },
       { campaign := summerCampaign, matchType := "seasonal", relevanceScore := 100 },
       { campaign := summerCampaign, matchType := "promotional", relevanceScore := 100 },
       { campaign := winterCampaign, matchType := "seasonal", relevanceScore := 0 }] :=
  findCampaignPatterns_summer_sale_eval

/-! ## Claim theorems: the seasonal detector -/

theorem lookup_insertSeasonRow (md : List (String × SeasonAgg)) (s : String) (r : Row)
    (s' : String) :
    List.lookup s' (insertSeasonRow md s r) =
      if s' = s then some (addRowToSeason ((List.lookup s md).getD emptySeasonAgg) r)
      else List.lookup s' md := by
  induction md with
  | nil =>
    by_cases h : s' = s
    · subst h
      simp [insertSeasonRow, lookup_cons_self]
    · rw [if_neg h]
      simp only [insertSeasonRow]
      rw [lookup_cons_ne _ _ h]
  | cons kd rest ih =>
    obtain ⟨k, d⟩ := kd
    simp only [insertSeasonRow]
    by_cases hk : k = s
    · rw [if_pos hk]
      subst hk
      by_cases h' : s' = k
      · subst h'
        rw [if_pos rfl, lookup_cons_self, lookup_cons_self]
        simp
      · rw [if_neg h', lookup_cons_ne _ _ h', lookup_cons_ne _ _ h']
    · rw [if_neg hk]
      by_cases h' : s' = k
      · subst h'
        have hss : s' ≠ s := fun e => hk e
        rw [if_neg hss, lookup_cons_self, lookup_cons_self]
      · rw [lookup_cons_ne _ _ h', ih, lookup_cons_ne _ _ h',
          lookup_cons_ne s k (fun e => hk e.symm)]

theorem campaigns_foldl (rows : List Row) :
    ∀ (md : List (String × SeasonAgg)) (s : String),
    ((List.lookup s (rows.foldl (fun md r => insertSeasonRow md (getSeason r.month) r) md)).getD
        emptySeasonAgg).campaigns =
      ((List.lookup s md).getD emptySeasonAgg).campaigns +
        rows.countP (fun r => getSeason r.month == s) := by
  induction rows with
  | nil => intro md s; simp
  | cons r rows ih =>
    intro md s
    simp only [List.foldl_cons, List.countP_cons]
    rw [ih, lookup_insertSeasonRow]
    by_cases h : s = getSeason r.month
    · rw [if_pos h, h]
      simp only [Option.getD_some, addRowToSeason, beq_self_eq_true, if_pos]
      omega
    · rw [if_neg h]
      have hb : (getSeason r.month == s) = false :=
        beq_eq_false_iff_ne.mpr (fun e => h e.symm)
      simp [hb]

theorem lookup_map_summary (md : List (String × SeasonAgg)) (s : String)
    (g : SeasonAgg → SeasonSummary) :
    List.lookup s (md.map (fun sd => (sd.1, g sd.2))) = (List.lookup s md).map g := by
  induction md with
  | nil => simp
  | cons kd rest ih =>
    obtain ⟨k, d⟩ := kd
    by_cases h : s = k
    · subst h
      simp only [List.map_cons]
      rw [lookup_cons_self, lookup_cons_self]
      rfl
    · simp only [List.map_cons]
      rw [lookup_cons_ne _ _ h, lookup_cons_ne _ _ h, ih]

/-- C8: the seasonal detector assigns 0-based month indices by the fixed
mapping 2–4 → Spring, 5–7 → Summer, 8–10 → Fall and everything else (11, 0,
1) → Winter — in particular December (index 11) lands in Winter, not Fall —
and every reported season's `avgCampaigns` equals that season's row count
divided by the fixed divisor 3 and rounded to an integer. -/
theorem seasonal_bucketing_spec :
    (∀ m : ℕ, m ≤ 11 →
      getSeason m = if 2 ≤ m ∧ m ≤ 4 then "Spring"
        else if 5 ≤ m ∧ m ≤ 7 then "Summer"
        else if 8 ≤ m ∧ m ≤ 10 then "Fall" else "Winter") ∧
    getSeason 11 = "Winter" ∧
    (∀ (rows : List Row) (dr : List DateInterval) (s : String) (out : SeasonSummary),
      List.lookup s (detectSeasonalPatterns rows dr) = some out →
      out.avgCampaigns = round ((rows.countP (fun r => getSeason r.month == s) : ℚ) / 3)) := by
  refine ⟨fun m _ => rfl, rfl, ?_⟩
  intro rows dr s out h
  simp only [detectSeasonalPatterns] at h
  rw [lookup_map_summary] at h
  cases hl : List.lookup s (rows.foldl (fun md r => insertSeasonRow md (getSeason r.month) r) [])
    with
  | none => rw [hl] at h; cases h
  | some d =>
    rw [hl] at h
    have hcamp := campaigns_foldl rows [] s
    rw [hl] at hcamp
    simp only [List.lookup_nil, Option.getD_none, Option.getD_some] at hcamp
    have he0 : emptySeasonAgg.campaigns = 0 := rfl
    rw [he0, Nat.zero_add] at hcamp
    simp only [Option.map_some'] at h
    cases h
    show (seasonSummaryOf d).avgCampaigns =
      round ((rows.countP (fun r => getSeason r.month == s) : ℚ) / 3)
    simp only [seasonSummaryOf]
    rw [hcamp]

theorem seasonal_bucketing_witness :
    getSeason 3 = "Spring" ∧
    (∃ out, List.lookup "Winter" (detectSeasonalPatterns [decemberRow] []) = some out ∧
      out.avgCampaigns =
        round ((List.countP (fun r => getSeason r.month == "Winter") [decemberRow] : ℚ) / 3)) := by
  constructor
  · have h := seasonal_bucketing_spec.1 3 (by norm_num)
    simpa using h
  · exact ⟨_, rfl, seasonal_bucketing_spec.2.2 [decemberRow] [] "Winter" _ rfl⟩

/-! ## Claim theorems: the comparison executor -/

/-- C9: if the upstream executor fails for either period — rejecting
outright or resolving with `success: false` — the whole comparison fails
with an error; conversely, a success is only ever produced from two
successful upstream results, so no one-sided partial comparison is ever
returned. -/
theorem executeComparison_fail_fast (exec : DateInterval → Except String GAQLResult)
    (p1 p2 : DateInterval) :
    (((∃ e, exec p1 = .error e) ∨ (∃ r, exec p1 = .ok r ∧ r.success = false) ∨
      (∃ e, exec p2 = .error e) ∨ (∃ r, exec p2 = .ok r ∧ r.success = false)) →
      ∃ msg, executeComparison exec p1 p2 = .error msg) ∧
    (∀ c, executeComparison exec p1 p2 = .ok c →
      ∃ r1 r2, exec p1 = .ok r1 ∧ r1.success = true ∧ exec p2 = .ok r2 ∧ r2.success = true ∧
        c = comparePerformance r1.data r2.data p1.label p2.label) := by
  constructor
  · rintro (⟨e, he⟩ | ⟨r, hr, hs⟩ | ⟨e, he⟩ | ⟨r, hr, hs⟩)
    · exact ⟨"Comparison failed: " ++ e, by simp [executeComparison, he]⟩
    · cases h2 : exec p2 with
      | error e2 => exact ⟨"Comparison failed: " ++ e2, by simp [executeComparison, hr, h2]⟩
      | ok r2 =>
        exact ⟨"Comparison failed: " ++ "Failed to fetch comparison data",
          by simp [executeComparison, hr, h2, hs]⟩
    · cases h1 : exec p1 with
      | error e1 => exact ⟨"Comparison failed: " ++ e1, by simp [executeComparison, h1]⟩
      | ok r1 => exact ⟨"Comparison failed: " ++ e, by simp [executeComparison, h1, he]⟩
    · cases h1 : exec p1 with
      | error e1 => exact ⟨"Comparison failed: " ++ e1, by simp [executeComparison, h1]⟩
      | ok r1 =>
        exact ⟨"Comparison failed: " ++ "Failed to fetch comparison data",
          by simp [executeComparison, h1, hr, hs]⟩
  · intro c hc
    cases h1 : exec p1 with
    | error e =>
      simp only [executeComparison, h1] at hc
      cases hc
    | ok r1 =>
      cases h2 : exec p2 with
      | error e =>
        simp only [executeComparison, h1, h2] at hc
        cases hc
      | ok r2 =>
        simp only [executeComparison, h1, h2] at hc
        by_cases hs : (!r1.success || !r2.success) = true
        · rw [if_pos hs] at hc
          cases hc
        · rw [if_neg hs] at hc
          have hs' : r1.success = true ∧ r2.success = true := by
            simpa using hs
          cases hc
          exact ⟨r1, r2, rfl, hs'.1, rfl, hs'.2, rfl⟩

theorem executeComparison_fail_fast_witness :
    ∃ msg, executeComparison failingExec emptyInterval emptyInterval = .error msg :=
  (executeComparison_fail_fast failingExec emptyInterval emptyInterval).1
    (Or.inl ⟨"upstream down", rfl⟩)

/-! ## Lemmas about the date-pattern matcher -/

theorem toNat_ofNat_valid (n : ℕ) (h : n < 55296) : (Char.ofNat n).toNat = n := by
  rw [Char.ofNat, dif_pos (Or.inl h)]
  simp [Char.ofNatAux, Char.toNat, UInt32.toNat, BitVec.toNat_ofNatLt]

theorem isWordChar_of_alpha {c : Char} (h : isAsciiAlpha c = true) : isWordChar c = true := by
  simp [isWordChar, h]

theorem not_ws_of_word {c : Char} (h : isWordChar c = true) : isWsChar c = false := by
  simp only [isWordChar, isDigitChar, isAsciiAlpha, Bool.or_eq_true, decide_eq_true_eq,
    beq_iff_eq] at h
  simp only [isWsChar, Bool.or_eq_false_iff, beq_eq_false_iff_ne]
  omega

theorem not_ws_of_digit {c : Char} (h : isDigitChar c = true) : isWsChar c = false := by
  simp only [isDigitChar, decide_eq_true_eq] at h
  simp only [isWsChar, Bool.or_eq_false_iff, beq_eq_false_iff_ne]
  omega

theorem jsToLowerChar_digit {c : Char} (h : isDigitChar c = true) : jsToLowerChar c = c := by
  simp only [isDigitChar, decide_eq_true_eq] at h
  rw [jsToLowerChar, if_neg (by omega)]

theorem toNat_jsToLowerChar_alpha {c : Char} (h : isAsciiAlpha c = true) :
    97 ≤ (jsToLowerChar c).toNat ∧ (jsToLowerChar c).toNat ≤ 122 := by
  simp only [isAsciiAlpha, decide_eq_true_eq] at h
  rw [jsToLowerChar]
  rcases h with h | h
  · rw [if_pos (by omega), toNat_ofNat_valid _ (by omega)]
    omega
  · rw [if_neg (by omega)]
    omega

theorem not_ws_of_lower_alpha {c : Char} (h : isAsciiAlpha c = true) :
    isWsChar (jsToLowerChar c) = false := by
  have := toNat_jsToLowerChar_alpha h
  simp only [isWsChar, Bool.or_eq_false_iff, beq_eq_false_iff_ne]
  omega

theorem takeWhile_append_all {p : Char → Bool} (w : List Char) (x : Char) (rest : List Char)
    (hw : ∀ c ∈ w, p c = true) (hx : p x = false) :
    (w ++ x :: rest).takeWhile p = w ∧ (w ++ x :: rest).dropWhile p = x :: rest := by
  induction w with
  | nil => simp [List.takeWhile_cons, List.dropWhile_cons, hx]
  | cons a w' ih =>
    have ha : p a = true := hw a (List.mem_cons_self a w')
    have hrest := ih (fun c hc => hw c (List.mem_cons_of_mem _ hc))
    simp [List.takeWhile_cons, List.dropWhile_cons, ha, hrest.1, hrest.2]

theorem countP_drop_le (p : Char → Bool) (n : ℕ) (l : List Char) :
    (l.drop n).countP p ≤ l.countP p := by
  conv_rhs => rw [← List.take_append_drop n l]
  rw [List.countP_append]
  omega

theorem countP_dropWhile_le (p q : Char → Bool) (l : List Char) :
    (l.dropWhile q).countP p ≤ l.countP p := by
  conv_rhs => rw [← List.takeWhile_append_dropWhile (p := q) (l := l)]
  rw [List.countP_append]
  omega

theorem tokMatchAt_ws_le (toks : List RTok) : ∀ (cs : List Char) (caps : List (List Char)),
    tokMatchAt toks cs = some caps → wsToks toks ≤ cs.countP isWsChar := by
  induction toks with
  | nil =>
    intro cs caps _
    simp [wsToks]
  | cons t rest ih =>
    intro cs caps h
    cases t with
    | lit w =>
      simp only [tokMatchAt] at h
      split at h
      · calc wsToks (RTok.lit w :: rest) = wsToks rest := by simp [wsToks]
          _ ≤ (cs.drop w.length).countP isWsChar := ih _ _ h
          _ ≤ cs.countP isWsChar := countP_drop_le _ _ _
      · cases h
    | ws =>
      simp only [tokMatchAt] at h
      split at h
      · cases h
      · rename_i hne
        have h1 : wsToks rest ≤ (cs.dropWhile isWsChar).countP isWsChar := ih _ _ h
        have h2 : (cs.takeWhile isWsChar).countP isWsChar = (cs.takeWhile isWsChar).length := by
          rw [List.countP_eq_length]
          exact fun a ha => List.mem_takeWhile_imp ha
        have h3 : 1 ≤ (cs.takeWhile isWsChar).length := by
          have : cs.takeWhile isWsChar ≠ [] := by
            intro e
            rw [e] at hne
            simp at hne
          cases he : cs.takeWhile isWsChar with
          | nil => exact absurd he this
          | cons _ _ => simp
        have h4 : cs.countP isWsChar =
            (cs.takeWhile isWsChar).countP isWsChar + (cs.dropWhile isWsChar).countP isWsChar := by
          conv_lhs => rw [← List.takeWhile_append_dropWhile (p := isWsChar) (l := cs)]
          rw [List.countP_append]
        have h5 : wsToks (RTok.ws :: rest) = wsToks rest + 1 := by simp [wsToks]
        omega
    | word =>
      simp only [tokMatchAt] at h
      split at h
      · cases h
      · obtain ⟨caps', hc', _⟩ := Option.map_eq_some'.mp h
        calc wsToks (RTok.word :: rest) = wsToks rest := by simp [wsToks]
          _ ≤ (cs.dropWhile isWordChar).countP isWsChar := ih _ _ hc'
          _ ≤ cs.countP isWsChar := countP_dropWhile_le _ _ _
    | dig n =>
      simp only [tokMatchAt] at h
      split at h
      · obtain ⟨caps', hc', _⟩ := Option.map_eq_some'.mp h
        calc wsToks (RTok.dig n :: rest) = wsToks rest := by simp [wsToks]
          _ ≤ (cs.drop n).countP isWsChar := ih _ _ hc'
          _ ≤ cs.countP isWsChar := countP_drop_le _ _ _
      · cases h

theorem tokMatchAt_none_of_ws (t : List RTok) (cs : List Char) (h2 : 2 ≤ wsToks t)
    (h : cs.countP isWsChar ≤ 1) : tokMatchAt t cs = none := by
  cases htm : tokMatchAt t cs with
  | none => rfl
  | some caps =>
    have := tokMatchAt_ws_le t cs caps htm
    omega

theorem tryAlts_none (alts : List (List RTok)) (cs : List Char)
    (h : ∀ t ∈ alts, tokMatchAt t cs = none) : tryAlts alts cs = none := by
  induction alts with
  | nil => rfl
  | cons t rest ih =>
    simp only [tryAlts, h t (List.mem_cons_self t rest)]
    exact ih (fun t' ht' => h t' (List.mem_cons_of_mem _ ht'))

theorem reFind_none_of_all (alts : List (List RTok)) : ∀ cs : List Char,
    (∀ t ∈ alts, ∀ n : ℕ, tokMatchAt t (cs.drop n) = none) → reFind alts cs = none := by
  intro cs
  induction cs with
  | nil =>
    intro h
    simp only [reFind]
    exact tryAlts_none alts [] (fun t ht => by simpa using h t ht 0)
  | cons c cs' ih =>
    intro h
    simp only [reFind]
    rw [tryAlts_none alts (c :: cs') (fun t ht => by simpa using h t ht 0)]
    exact ih (fun t ht n => by simpa using h t ht (n + 1))

theorem reFind_none_of_min_ws (alts : List (List RTok)) (hk : ∀ t ∈ alts, 2 ≤ wsToks t)
    (cs : List Char) (h : cs.countP isWsChar ≤ 1) : reFind alts cs = none := by
  apply reFind_none_of_all
  intro t ht n
  exact tokMatchAt_none_of_ws t _ (hk t ht)
    (le_trans (countP_drop_le isWsChar n cs) h)

theorem tokMatchAt_single_lit (ys : List Char) (cs : List Char) :
    tokMatchAt [RTok.lit ys] cs = if isPrefixChars ys cs then some [] else none := by
  cases hp : isPrefixChars ys cs <;> simp [tokMatchAt, hp]

theorem reFind_lastYearSame_none : ∀ cs : List Char, cs.countP isWsChar ≤ 1 →
    isInfixChars ('y' :: 'o' :: 'y' :: []) cs = false → reFind lastYearSameAlts cs = none := by
  intro cs
  induction cs with
  | nil => intro _ _; decide
  | cons c cs' ih =>
    intro hws hyoy
    simp only [isInfixChars, Bool.or_eq_false_iff] at hyoy
    have hcount' : cs'.countP isWsChar ≤ 1 := by
      rw [List.countP_cons] at hws
      omega
    have htry : tryAlts lastYearSameAlts (c :: cs') = none := by
      apply tryAlts_none
      intro t ht
      simp only [lastYearSameAlts, List.mem_cons, List.mem_singleton] at ht
      rcases ht with rfl | rfl | rfl | ht
      · exact tokMatchAt_none_of_ws _ _ (by decide) hws
      · exact tokMatchAt_none_of_ws _ _ (by decide) hws
      · rw [show (litT "yoy") = RTok.lit ('y' :: 'o' :: 'y' :: []) from rfl,
          tokMatchAt_single_lit, if_neg]
        simp [hyoy.1]
      · cases ht
    simp only [reFind, htry]
    exact ih hcount' hyoy.2

theorem prefix_append_disjoint (pat : List Char) : ∀ (s ext : List Char),
    (∀ c ∈ ext, ∀ p ∈ pat, (p == c) = false) →
    isPrefixChars pat (s ++ ext) = isPrefixChars pat s := by
  induction pat with
  | nil => intro s ext _; simp [isPrefixChars]
  | cons p ps ih =>
    intro s ext hd
    cases s with
    | nil =>
      simp only [List.nil_append]
      cases ext with
      | nil => rfl
      | cons c ext' =>
        have hpc : (p == c) = false := hd c (List.mem_cons_self _ _) p (List.mem_cons_self _ _)
        simp [isPrefixChars, hpc]
    | cons a s' =>
      simp only [List.cons_append, isPrefixChars, List.append_eq]
      rw [ih s' ext (fun c hc q hq => hd c hc q (List.mem_cons_of_mem _ hq))]

theorem infix_append_none (pat : List Char) : ∀ (s ext : List Char),
    (∀ c ∈ ext, ∀ p ∈ pat, (p == c) = false) →
    isInfixChars pat s = false → isInfixChars pat ext = false →
    isInfixChars pat (s ++ ext) = false := by
  intro s
  induction s with
  | nil => intro ext _ _ hext; simpa using hext
  | cons c s' ih =>
    intro ext hd hs hext
    simp only [isInfixChars, Bool.or_eq_false_iff] at hs
    simp only [List.cons_append, isInfixChars, Bool.or_eq_false_iff, List.append_eq]
    constructor
    · rw [show c :: (s' ++ ext) = (c :: s') ++ ext from rfl, prefix_append_disjoint pat _ ext hd]
      exact hs.1
    · exact ih ext hd hs.2 hext

theorem char_ne_of_toNat_ne {a b : Char} (h : a.toNat ≠ b.toNat) : (a == b) = false :=
  beq_eq_false_iff_ne.mpr (fun e => h (congrArg Char.toNat e))

theorem yoy_beq_digit_false {c : Char} (hc : isDigitChar c = true) :
    ∀ p ∈ ('y' :: 'o' :: 'y' :: []), (p == c) = false := by
  simp only [isDigitChar, decide_eq_true_eq] at hc
  intro p hp
  fin_cases hp
  · exact char_ne_of_toNat_ne (by rw [show ('y' : Char).toNat = 121 from rfl]; omega)
  · exact char_ne_of_toNat_ne (by rw [show ('o' : Char).toNat = 111 from rfl]; omega)
  · exact char_ne_of_toNat_ne (by rw [show ('y' : Char).toNat = 121 from rfl]; omega)

theorem infix_yoy_digits (y : List Char) (hyd : ∀ c ∈ y, isDigitChar c = true) :
    isInfixChars ('y' :: 'o' :: 'y' :: []) y = false := by
  induction y with
  | nil => rfl
  | cons c y' ih =>
    have hc := hyd c (List.mem_cons_self _ _)
    have hyc : ('y' == c) = false := yoy_beq_digit_false hc 'y' (List.mem_cons_self _ _)
    simp only [isInfixChars, isPrefixChars, hyc, Bool.false_and, Bool.false_or]
    exact ih (fun d hd => hyd d (List.mem_cons_of_mem _ hd))

theorem takeWhile_no_ws (y : List Char) (h : ∀ c ∈ y, isWsChar c = false) :
    y.takeWhile isWsChar = [] := by
  cases y with
  | nil => rfl
  | cons c y' => simp [List.takeWhile_cons, h c (List.mem_cons_self c y')]

theorem dropWhile_no_ws (y : List Char) (h : ∀ c ∈ y, isWsChar c = false) :
    y.dropWhile isWsChar = y := by
  cases y with
  | nil => rfl
  | cons c y' => simp [List.dropWhile_cons, h c (List.mem_cons_self c y')]

theorem tokMatchAt_monthYear (w y : List Char) (hw : w ≠ [])
    (hwc : ∀ c ∈ w, isWordChar c = true) (hy4 : y.length = 4)
    (hyd : ∀ c ∈ y, isDigitChar c = true) :
    tokMatchAt monthYearAlt (w ++ ' ' :: y) = some [w, y] := by
  have hsp : isWordChar ' ' = false := by decide
  have ht := takeWhile_append_all (p := isWordChar) w ' ' y hwc hsp
  have hyws : ∀ c ∈ y, isWsChar c = false := fun c hc => not_ws_of_digit (hyd c hc)
  have hwe : w.isEmpty = false := by
    cases w with
    | nil => exact absurd rfl hw
    | cons _ _ => rfl
  have htake4 : y.take 4 = y := List.take_of_length_le (le_of_eq hy4)
  have hdrop4 : y.drop 4 = [] := List.drop_eq_nil_of_le (le_of_eq hy4)
  simp only [monthYearAlt, tokMatchAt, ht.1, ht.2, hwe, Bool.false_eq_true, if_false,
    List.takeWhile_cons, List.dropWhile_cons, show isWsChar ' ' = true from rfl,
    takeWhile_no_ws y hyws, dropWhile_no_ws y hyws, htake4, hdrop4, hy4]
  simp [htake4, hy4, List.all_eq_true.mpr hyd]

theorem reFind_monthYear (w y : List Char) (hw : w ≠ [])
    (hwc : ∀ c ∈ w, isWordChar c = true) (hy4 : y.length = 4)
    (hyd : ∀ c ∈ y, isDigitChar c = true) :
    reFind [monthYearAlt] (w ++ ' ' :: y) = some [w, y] := by
  cases w with
  | nil => exact absurd rfl hw
  | cons a w' =>
    have hm := tokMatchAt_monthYear (a :: w') y hw hwc hy4 hyd
    simp only [List.cons_append] at hm ⊢
    simp [reFind, tryAlts, hm]

theorem matchMonthYear_eq (w y : List Char) (hw : w ≠ [])
    (hwc : ∀ c ∈ w, isWordChar c = true) (hy4 : y.length = 4)
    (hyd : ∀ c ∈ y, isDigitChar c = true) :
    matchMonthYear (w ++ ' ' :: y) = some (String.mk w, String.mk y) := by
  simp [matchMonthYear, reFind_monthYear w y hw hwc hy4 hyd]

theorem strLower_query (w y : List Char) (hyd : ∀ c ∈ y, isDigitChar c = true) :
    (strLower (String.mk (w ++ ' ' :: y))).data = (w.map jsToLowerChar) ++ ' ' :: y := by
  show (w ++ ' ' :: y).map jsToLowerChar = w.map jsToLowerChar ++ ' ' :: y
  rw [List.map_append, List.map_cons]
  have h1 : jsToLowerChar ' ' = ' ' := by decide
  have h2 : y.map jsToLowerChar = y := by
    rw [List.map_congr_left (fun c hc => jsToLowerChar_digit (hyd c hc))]
    exact List.map_id y
  rw [h1, h2]

theorem countP_lowered (w y : List Char) (ha : ∀ c ∈ w, isAsciiAlpha c = true)
    (hyd : ∀ c ∈ y, isDigitChar c = true) :
    ((w.map jsToLowerChar) ++ ' ' :: y).countP isWsChar = 1 := by
  rw [List.countP_append, List.countP_cons]
  have h1 : (w.map jsToLowerChar).countP isWsChar = 0 := by
    rw [List.countP_eq_zero]
    intro c hc
    obtain ⟨d, hd, rfl⟩ := List.mem_map.mp hc
    simp [not_ws_of_lower_alpha (ha d hd)]
  have h2 : y.countP isWsChar = 0 := by
    rw [List.countP_eq_zero]
    intro c hc
    simp [not_ws_of_digit (hyd c hc)]
  rw [h1, h2]
  rfl

theorem infix_yoy_lowered (w y : List Char)
    (hyoy : isInfixChars ('y' :: 'o' :: 'y' :: []) (w.map jsToLowerChar) = false)
    (hyd : ∀ c ∈ y, isDigitChar c = true) :
    isInfixChars ('y' :: 'o' :: 'y' :: []) ((w.map jsToLowerChar) ++ ' ' :: y) = false := by
  apply infix_append_none
  · intro c hc p hp
    rcases List.mem_cons.mp hc with rfl | hcy
    · fin_cases hp <;> decide
    · exact yoy_beq_digit_false (hyd c hcy) p hp
  · exact hyoy
  · simp only [isInfixChars, isPrefixChars, show (('y' : Char) == ' ') = false from by decide,
      Bool.false_and, Bool.false_or]
    exact infix_yoy_digits y hyd

theorem parseMonth_unrecognized (w : List Char)
    (hlook : List.lookup (String.mk (w.map jsToLowerChar)) monthsTable = none) :
    parseMonth (String.mk w) = 1 := by
  simp only [parseMonth]
  rw [show strLower (String.mk w) = String.mk (w.map jsToLowerChar) from rfl, hlook]
  rfl

theorem daysInMonth_january (z : ℤ) : daysInMonth z 1 = 31 := by
  norm_num [daysInMonth]

/-! ## Claim theorems: the date-range resolver -/

/-- C6 (amended): parsing `"march 2022"` yields the single primary interval
2022-03-01 .. 2022-03-31 labelled `"march 2022"` (end day from the actual
calendar day count); and for every query of the form
`<word> <4-digit year>` whose month word is unrecognized — provided the
word does not contain `yoy` (case-insensitively), which would divert the
query into the year-over-year comparison branch first, and its lowercase
image is not an inherited `Object.prototype` property name such as
`constructor` or `__proto__`, for which the untyped `months[...]` lookup
hits the prototype chain instead of missing — the resolver silently
defaults the month to January of that year. -/
theorem parseDateRequest_monthYear_spec (now : NowInfo) :
    (parseDateRequest now "march 2022").primary =
      { start := "2022-03-01", «end» := "2022-03-31", label := "march 2022" } ∧
    (∀ w y : List Char, w ≠ [] → (∀ c ∈ w, isAsciiAlpha c = true) →
      isInfixChars ('y' :: 'o' :: 'y' :: []) (w.map jsToLowerChar) = false →
      List.lookup (String.mk (w.map jsToLowerChar)) monthsTable = none →
      String.mk (w.map jsToLowerChar) ∉ objectProtoLowerKeys →
      y.length = 4 → (∀ c ∈ y, isDigitChar c = true) →
      parseDateRequest now (String.mk (w ++ ' ' :: y)) =
        { primary := { start := toString (digitsToNat y) ++ "-01-01",
                       «end» := toString (digitsToNat y) ++ "-01-31",
                       label := String.mk w ++ " " ++ toString (digitsToNat y) },
          comparison := emptyInterval, type := "single" }) := by
  constructor
  · rfl
  · intro w y hw ha hyoy hlook _hproto hy4 hyd
    have hwc : ∀ c ∈ w, isWordChar c = true := fun c hc => isWordChar_of_alpha (ha c hc)
    have hql := strLower_query w y hyd
    have hcnt : ((w.map jsToLowerChar) ++ ' ' :: y).countP isWsChar ≤ 1 :=
      le_of_eq (countP_lowered w y ha hyd)
    have hyoy2 := infix_yoy_lowered w y hyoy hyd
    have ht1 : reTest yoyAlts ((strLower (String.mk (w ++ ' ' :: y))).data) = false := by
      rw [hql]
      simp [reTest, reFind_none_of_min_ws yoyAlts (by decide) _ hcnt]
    have ht2 : reTest lastYearSameAlts ((strLower (String.mk (w ++ ' ' :: y))).data) = false := by
      rw [hql]
      simp [reTest, reFind_lastYearSame_none _ hcnt hyoy2]
    have ht3 : matchCustomRange ((strLower (String.mk (w ++ ' ' :: y))).data) = none := by
      rw [hql]
      simp [matchCustomRange, reFind_none_of_min_ws [customRangeAlt] (by decide) _ hcnt]
    have ht4 : matchMonthYear ((String.mk (w ++ ' ' :: y)).data) =
        some (String.mk w, String.mk y) := by
      show matchMonthYear (w ++ ' ' :: y) = _
      exact matchMonthYear_eq w y hw hwc hy4 hyd
    simp only [parseDateRequest, ht1, ht2, ht3, ht4, Bool.or_self, Bool.false_eq_true, if_false]
    rw [parseMonth_unrecognized w hlook]
    simp only [String.append_assoc]
    rw [daysInMonth_january]
    rw [show ("-" : String) ++ (pad2 1 ++ "-01") = "-01-01" from rfl,
        show ("-" : String) ++ (pad2 1 ++ ("-" ++ toString (31 : ℕ))) = "-01-31" from rfl]

/-- C6 counterexample: `"yoy 2022"` is a `<word> <4-digit year>` query whose
month word is not a recognized month name, yet it does not default to
January 2022 — the word `yoy` matches the year-over-year pattern tested
first, so a clock-relative comparison is returned instead. -/
theorem parseDateRequest_yoy_counterexample :
    List.lookup "yoy" monthsTable = none ∧
    (parseDateRequest testNow "yoy 2022").type = "comparison" ∧
    (parseDateRequest testNow "yoy 2022").primary ≠
      { start := "2022-01-01", «end» := "2022-01-31", label := "yoy 2022" } := by
  refine ⟨by decide, rfl, by decide⟩

theorem parseDateRequest_monthYear_witness :
    parseDateRequest testNow "zzz 2022" =
      { primary := { start := "2022-01-01", «end» := "2022-01-31", label := "zzz 2022" },
        comparison := emptyInterval, type := "single" } :=
  (parseDateRequest_monthYear_spec testNow).2 ['z', 'z', 'z'] ['2', '0', '2', '2']
    (by decide) (by decide) (by decide) (by decide) (by decide) (by decide) (by decide)

end AdsEngine
